import Mathlib

/-!
Verification of the command-resolution subsystem of a voice-driven
task-management assistant (task identifier resolver, natural-language date
parser, priority keyword mapper, retry executor, and the four command tools).

Modelling conventions:
* JavaScript strings are Lean `String`s; string operations (`toLowerCase`,
  `trim`, `includes`, `parseInt`) are embedded as executable functions on
  `List Char` (ASCII model of `toLowerCase`; the whitespace set of `trim`
  is modelled by the four ASCII whitespace characters).
* Instants (`Date` values) are modelled as natural numbers: milliseconds
  since the Unix epoch in UTC, so the model covers all instants at or after
  1970, which is the range the subsystem operates in.  UTC field mutation
  (`setUTCHours`, `setUTCDate`, `setUTCMonth`) is modelled by explicit
  arithmetic on that count, with a Gregorian civil-calendar conversion for
  month increments.
* JavaScript numbers that flow through the priority mapper are modelled as
  rationals (`ℚ`); every concrete number the claims mention is exactly
  representable both as a double and as a rational.
* Asynchronous operations are modelled by their outcome: a fallible step is
  an `Except String` value (the `String` is the thrown error's message), and
  the retry executor takes the per-attempt outcomes as a function from the
  attempt index.  Real time (the actual sleeping) is modelled by recording
  the requested backoff delays in a list.
-/

namespace VoiceTodo

/-! ### Character and string primitives -/

/-- ASCII whitespace test used to model `String.prototype.trim`. -/
def isWSChar (c : Char) : Bool :=
  decide (c.toNat = 32 ∨ c.toNat = 9 ∨ c.toNat = 10 ∨ c.toNat = 13)

/-- ASCII model of `toLowerCase` on a single character. -/
def lowerChar (c : Char) : Char :=
  if 65 ≤ c.toNat ∧ c.toNat ≤ 90 then Char.ofNat (c.toNat + 32) else c

/-- Decimal digit test (`0`-`9`). -/
def isDigitChar (c : Char) : Bool :=
  decide (48 ≤ c.toNat ∧ c.toNat ≤ 57)

def lowerList (l : List Char) : List Char := l.map lowerChar

def trimList (l : List Char) : List Char :=
  ((l.dropWhile isWSChar).reverse.dropWhile isWSChar).reverse

/-- Model of `String.prototype.toLowerCase` (ASCII range). -/
def lowerStr (s : String) : String := ⟨lowerList s.data⟩

/-- Model of `String.prototype.trim`. -/
def trimStr (s : String) : String := ⟨trimList s.data⟩

/-- Prefix test on character lists. -/
def isPrefixList : List Char → List Char → Bool
  | [], _ => true
  | _ :: _, [] => false
  | c :: cs, d :: ds => c = d && isPrefixList cs ds

/-- Contiguous-substring test on character lists. -/
def isInfixList (needle : List Char) : List Char → Bool
  | [] => isPrefixList needle []
  | c :: t => isPrefixList needle (c :: t) || isInfixList needle t

/-- Model of `String.prototype.includes hay.includes needle`. -/
def containsSub (hay needle : String) : Bool :=
  isInfixList needle.data hay.data

/-- Numeric value of a list of decimal digits (most significant first). -/
def digitsVal (l : List Char) : Nat :=
  l.foldl (fun a c => 10 * a + (c.toNat - 48)) 0

/-- Maximal leading run of decimal digits, as a number (`none` when there is
no leading digit). -/
def parseDigitsPrefix (l : List Char) : Option Nat :=
  let ds := l.takeWhile isDigitChar
  if ds.isEmpty then none else some (digitsVal ds)

/-- Model of `parseInt(s, 10)`: leading whitespace skipped, an optional sign,
then the maximal leading run of decimal digits; `none` models `NaN`. -/
def parseIntList (l : List Char) : Option Int :=
  match l.dropWhile isWSChar with
  | [] => none
  | c :: rest =>
    if c = '-' then (parseDigitsPrefix rest).map (fun n => -(n : Int))
    else if c = '+' then (parseDigitsPrefix rest).map (fun n => (n : Int))
    else (parseDigitsPrefix (c :: rest)).map (fun n => (n : Int))

/-- Model of `Array.prototype.join sep` / building a separated list. -/
def joinSep (sep : String) : List String → String
  | [] => ""
  | [x] => x
  | x :: y :: rest => x ++ sep ++ joinSep sep (y :: rest)

/-! ### Substring lemmas -/

theorem isPrefixList_iff (n h : List Char) :
    isPrefixList n h = true ↔ ∃ r, h = n ++ r := by
  induction n generalizing h with
  | nil => simp [isPrefixList]
  | cons c cs ih =>
    cases h with
    | nil => simp [isPrefixList]
    | cons d ds =>
      simp only [isPrefixList, Bool.and_eq_true, decide_eq_true_eq, ih]
      constructor
      · rintro ⟨rfl, r, rfl⟩; exact ⟨r, rfl⟩
      · rintro ⟨r, hr⟩
        cases hr
        exact ⟨rfl, r, rfl⟩

theorem isInfixList_iff (n h : List Char) :
    isInfixList n h = true ↔ ∃ p q, h = p ++ (n ++ q) := by
  induction h with
  | nil =>
    simp only [isInfixList, isPrefixList_iff]
    constructor
    · rintro ⟨r, hr⟩; exact ⟨[], r, hr⟩
    · rintro ⟨p, q, hpq⟩
      rcases List.append_eq_nil.mp hpq.symm with ⟨rfl, h2⟩
      exact ⟨q, h2.symm⟩
  | cons c t ih =>
    simp only [isInfixList, Bool.or_eq_true, isPrefixList_iff, ih]
    constructor
    · rintro (⟨r, hr⟩ | ⟨p, q, hpq⟩)
      · exact ⟨[], r, by simp [hr]⟩
      · exact ⟨c :: p, q, by simp [hpq]⟩
    · rintro ⟨p, q, hpq⟩
      cases p with
      | nil => exact Or.inl ⟨q, by simpa using hpq⟩
      | cons a as =>
        right
        refine ⟨as, q, ?_⟩
        have := hpq
        simp only [List.cons_append] at this
        exact (List.cons.injEq .. ▸ this).2

theorem containsSub_iff (hay needle : String) :
    containsSub hay needle = true ↔ ∃ p q, hay.data = p ++ (needle.data ++ q) := by
  exact isInfixList_iff needle.data hay.data

theorem containsSub_middle (a lit c : String) :
    containsSub (a ++ lit ++ c) lit = true := by
  rw [containsSub_iff]
  exact ⟨a.data, c.data, by simp [String.data_append]⟩

theorem containsSub_sub (hay mid needle : String)
    (h1 : containsSub mid needle = true)
    (h2 : ∃ p q, hay.data = p ++ (mid.data ++ q)) :
    containsSub hay needle = true := by
  rw [containsSub_iff]
  rw [containsSub_iff] at h1
  rcases h1 with ⟨p1, q1, h1⟩
  rcases h2 with ⟨p2, q2, h2⟩
  exact ⟨p2 ++ p1, q1 ++ q2, by simp [h2, h1]⟩

theorem mem_joinSep_contains (sep : String) (l : List String) (x : String)
    (hx : x ∈ l) : containsSub (joinSep sep l) x = true := by
  induction l with
  | nil => cases hx
  | cons a rest ih =>
    cases rest with
    | nil =>
      rcases List.mem_singleton.mp hx with rfl
      rw [containsSub_iff]
      exact ⟨[], [], by simp [joinSep]⟩
    | cons b bs =>
      rcases List.mem_cons.mp hx with rfl | hmem
      · rw [containsSub_iff]
        refine ⟨[], (sep ++ joinSep sep (b :: bs)).data, ?_⟩
        simp [joinSep, String.data_append]
      · have h1 := ih hmem
        apply containsSub_sub _ _ _ h1
        refine ⟨(a ++ sep).data, [], ?_⟩
        simp [joinSep, String.data_append]

/-! ### Lowercasing commutes with trimming and integer parsing -/

theorem lowerChar_toNat_of_upper (c : Char) (h : 65 ≤ c.toNat ∧ c.toNat ≤ 90) :
    (lowerChar c).toNat = c.toNat + 32 := by
  unfold lowerChar
  rw [if_pos h]
  unfold Char.ofNat
  split
  · rfl
  · rename_i hh; exact absurd (Or.inl (by omega)) hh

theorem lowerChar_eq_self (c : Char) (h : ¬(65 ≤ c.toNat ∧ c.toNat ≤ 90)) :
    lowerChar c = c := by
  unfold lowerChar
  rw [if_neg h]

theorem isWSChar_lowerChar (c : Char) : isWSChar (lowerChar c) = isWSChar c := by
  by_cases h : 65 ≤ c.toNat ∧ c.toNat ≤ 90
  · have h2 := lowerChar_toNat_of_upper c h
    simp only [isWSChar, h2, decide_eq_decide]
    omega
  · rw [lowerChar_eq_self c h]

theorem isDigitChar_lowerChar (c : Char) :
    isDigitChar (lowerChar c) = isDigitChar c := by
  by_cases h : 65 ≤ c.toNat ∧ c.toNat ≤ 90
  · have h2 := lowerChar_toNat_of_upper c h
    simp only [isDigitChar, h2, decide_eq_decide]
    omega
  · rw [lowerChar_eq_self c h]

theorem lowerChar_of_digit (c : Char) (h : isDigitChar c = true) :
    lowerChar c = c := by
  apply lowerChar_eq_self
  simp only [isDigitChar, Bool.and_eq_true, decide_eq_true_eq] at h
  omega

theorem lowerChar_eq_iff (c d : Char) (hd : d.toNat < 65) :
    lowerChar c = d ↔ c = d := by
  constructor
  · intro h
    by_cases hc : 65 ≤ c.toNat ∧ c.toNat ≤ 90
    · exfalso
      have h2 := lowerChar_toNat_of_upper c hc
      have h3 := congrArg Char.toNat h
      omega
    · rwa [lowerChar_eq_self c hc] at h
  · intro h
    subst h
    apply lowerChar_eq_self
    omega

theorem lowerComp_WS : (isWSChar ∘ lowerChar) = isWSChar :=
  funext (fun c => isWSChar_lowerChar c)

theorem lowerComp_digit : (isDigitChar ∘ lowerChar) = isDigitChar :=
  funext (fun c => isDigitChar_lowerChar c)

theorem trimList_lowerList (l : List Char) :
    trimList (lowerList l) = lowerList (trimList l) := by
  show trimList (l.map lowerChar) = (trimList l).map lowerChar
  unfold trimList
  rw [List.dropWhile_map, lowerComp_WS, ← List.map_reverse, List.dropWhile_map,
    lowerComp_WS, ← List.map_reverse]

theorem parseDigitsPrefix_lowerList (l : List Char) :
    parseDigitsPrefix (lowerList l) = parseDigitsPrefix l := by
  show parseDigitsPrefix (l.map lowerChar) = parseDigitsPrefix l
  unfold parseDigitsPrefix
  rw [List.takeWhile_map, lowerComp_digit]
  have h2 : List.map lowerChar (List.takeWhile isDigitChar l) =
      List.takeWhile isDigitChar l := by
    rw [List.map_congr_left (g := id), List.map_id]
    intro a ha
    exact lowerChar_of_digit a (List.mem_takeWhile_imp ha)
  rw [h2]

theorem parseIntList_lowerList (l : List Char) :
    parseIntList (lowerList l) = parseIntList l := by
  unfold parseIntList
  have hdw : (lowerList l).dropWhile isWSChar = lowerList (l.dropWhile isWSChar) := by
    show (l.map lowerChar).dropWhile isWSChar = (l.dropWhile isWSChar).map lowerChar
    rw [List.dropWhile_map, lowerComp_WS]
  rw [hdw]
  cases h : l.dropWhile isWSChar with
  | nil => rfl
  | cons c rest =>
    show (match lowerChar c :: lowerList rest with
      | [] => none
      | c :: rest =>
        if c = '-' then (parseDigitsPrefix rest).map (fun n => -(n : Int))
        else if c = '+' then (parseDigitsPrefix rest).map (fun n => (n : Int))
        else (parseDigitsPrefix (c :: rest)).map (fun n => (n : Int))) = _
    simp only [lowerChar_eq_iff c '-' (by decide), lowerChar_eq_iff c '+' (by decide)]
    by_cases h1 : c = '-'
    · rw [if_pos h1, if_pos h1, parseDigitsPrefix_lowerList]
    · rw [if_neg h1, if_neg h1]
      by_cases h2 : c = '+'
      · rw [if_pos h2, if_pos h2, parseDigitsPrefix_lowerList]
      · rw [if_neg h2, if_neg h2]
        have hcons : lowerChar c :: lowerList rest = lowerList (c :: rest) := rfl
        rw [hcons, parseDigitsPrefix_lowerList]

/-! ### Priority keyword mapper (src/priority-mapper.ts) -/

/-- Argument type of `parsePriority`: `string | number | null | undefined`.
JavaScript numbers are modelled as rationals. -/
inductive PriorityArg : Type
  | absent : PriorityArg
  | null : PriorityArg
  | str (s : String) : PriorityArg
  | num (q : ℚ) : PriorityArg
deriving DecidableEq

structure PriorityMapping : Type where
  keywords : List String
  value : ℚ
  label : String
deriving DecidableEq

/-- The `PRIORITY_MAPPINGS` array. -/
def PRIORITY_MAPPINGS : List PriorityMapping :=
  [ ⟨["low", "minor", "optional"], 1, "Low"⟩,
    ⟨["normal", "medium", "standard", "regular"], 2, "Normal"⟩,
    ⟨["high", "important", "elevated"], 3, "High"⟩,
    ⟨["urgent", "pressing", "time-sensitive", "time sensitive"], 4, "Urgent"⟩,
    ⟨["critical", "severe", "blocking", "emergency"], 5, "Critical"⟩ ]

/-- The keyword loop at the end of `parsePriority`: first mapping (in array
order) one of whose keywords is contained in the normalized input wins. -/
def keywordLookup (normalized : String) : Option ℚ :=
  match PRIORITY_MAPPINGS.find?
      (fun m => m.keywords.any (fun k => containsSub normalized k)) with
  | some m => some m.value
  | none => none

/-- Normalization used by `parsePriority`: `input.toLowerCase().trim()`. -/
def normalizePriorityStr (s : String) : String := trimStr (lowerStr s)

/-- Embedding of `parsePriority`. -/
def parsePriority : PriorityArg → Option ℚ
  | .absent => none
  | .null => none
  | .num q => if 1 ≤ q ∧ q ≤ 5 then some q else none
  | .str s =>
    let normalized := normalizePriorityStr s
    match parseIntList normalized.data with
    | some n =>
      if 1 ≤ n ∧ n ≤ 5 then some (n : ℚ) else keywordLookup normalized
    | none => keywordLookup normalized

/-- Embedding of `formatPriority` (`null`/`undefined` are the `none` case). -/
def formatPriority : Option ℚ → String
  | none => ""
  | some v =>
    match PRIORITY_MAPPINGS.find? (fun m => decide (m.value = v)) with
    | some m => m.label
    | none => "Priority " ++ toString v

theorem parsePriority_num (q : ℚ) :
    parsePriority (.num q) = if 1 ≤ q ∧ q ≤ 5 then some q else none := rfl

theorem parsePriority_str (s : String) :
    parsePriority (.str s) =
      match parseIntList (normalizePriorityStr s).data with
      | some n =>
        if 1 ≤ n ∧ n ≤ 5 then some ((n : ℚ))
        else keywordLookup (normalizePriorityStr s)
      | none => keywordLookup (normalizePriorityStr s) := rfl

theorem keywordLookup_range (x : String) :
    keywordLookup x = none ∨
      ∃ q : ℚ, keywordLookup x = some q ∧ 1 ≤ q ∧ q ≤ 5 := by
  unfold keywordLookup
  cases hfind : PRIORITY_MAPPINGS.find?
      (fun m => m.keywords.any (fun k => containsSub x k)) with
  | none => exact Or.inl rfl
  | some m =>
    right
    refine ⟨m.value, rfl, ?_⟩
    have hm := List.mem_of_find?_eq_some hfind
    fin_cases hm <;> norm_num

/-- C8 counterexample: the number `5/2` (exactly representable as a
JavaScript double) is accepted and returned as-is, so `parsePriority` does
not always return an integer or null. -/
theorem c8_counterexample :
    parsePriority (.num (5 / 2 : ℚ)) = some (5 / 2 : ℚ) ∧
      ¬∃ n : ℤ, (5 / 2 : ℚ) = (n : ℚ) := by
  constructor
  · show (if 1 ≤ (5 / 2 : ℚ) ∧ (5 / 2 : ℚ) ≤ 5 then some (5 / 2 : ℚ) else none) = _
    norm_num
  · rintro ⟨n, hn⟩
    have hd := congrArg Rat.den hn
    norm_num [Rat.den_intCast] at hd

/-- C8 (amended): for every input, `parsePriority` returns either a number
in `[1,5]` or `none`; numeric input in `[1,5]` is returned as-is (including
non-integers), numeric input outside `[1,5]` yields `none`, null/absent
input yields `none`, and a string matching no numeric form and no priority
keyword yields `none`. -/
theorem c8_parsePriority_contract (p : PriorityArg) :
    (parsePriority p = none ∨
       ∃ q : ℚ, parsePriority p = some q ∧ 1 ≤ q ∧ q ≤ 5) ∧
    (∀ q : ℚ, 1 ≤ q → q ≤ 5 → parsePriority (.num q) = some q) ∧
    (∀ q : ℚ, ¬(1 ≤ q ∧ q ≤ 5) → parsePriority (.num q) = none) ∧
    parsePriority .null = none ∧
    parsePriority .absent = none ∧
    (∀ s : String,
      (∀ n : Int,
        parseIntList (normalizePriorityStr s).data = some n → ¬(1 ≤ n ∧ n ≤ 5)) →
      keywordLookup (normalizePriorityStr s) = none →
      parsePriority (.str s) = none) := by
  refine ⟨?_, ?_, ?_, rfl, rfl, ?_⟩
  · cases p with
    | absent => exact Or.inl rfl
    | null => exact Or.inl rfl
    | num q =>
      rw [parsePriority_num]
      by_cases h : 1 ≤ q ∧ q ≤ 5
      · exact Or.inr ⟨q, by rw [if_pos h], h.1, h.2⟩
      · exact Or.inl (by rw [if_neg h])
    | str s =>
      rw [parsePriority_str]
      cases hp : parseIntList (normalizePriorityStr s).data with
      | none =>
        simp only
        rcases keywordLookup_range (normalizePriorityStr s) with h | ⟨q, hq, h1, h5⟩
        · exact Or.inl h
        · exact Or.inr ⟨q, hq, h1, h5⟩
      | some n =>
        simp only
        by_cases h : 1 ≤ n ∧ n ≤ 5
        · refine Or.inr ⟨(n : ℚ), by rw [if_pos h], ?_, ?_⟩
          · exact_mod_cast h.1
          · exact_mod_cast h.2
        · rw [if_neg h]
          rcases keywordLookup_range (normalizePriorityStr s) with hk | ⟨q, hq, h1, h5⟩
          · exact Or.inl hk
          · exact Or.inr ⟨q, hq, h1, h5⟩
  · intro q h1 h5
    rw [parsePriority_num, if_pos ⟨h1, h5⟩]
  · intro q h
    rw [parsePriority_num, if_neg h]
  · intro s hnum hkw
    rw [parsePriority_str]
    cases hp : parseIntList (normalizePriorityStr s).data with
    | none => exact hkw
    | some n =>
      simp only
      rw [if_neg (hnum n hp)]
      exact hkw

/-- C8 witness: a concrete application of the amended contract. -/
theorem c8_parsePriority_contract_witness :
    parsePriority (.num 7) = none :=
  (c8_parsePriority_contract (.num 7)).2.2.1 7 (by norm_num)

/-- C9: every keyword of each of the five priority classes round-trips
through `parsePriority` then `formatPriority` to that class's canonical
label; in particular `parsePriority "urgent" = 4` and
`parsePriority "3" = 3`. -/
theorem c9_keyword_roundtrip :
    (∀ m ∈ PRIORITY_MAPPINGS, ∀ kw ∈ m.keywords,
        formatPriority (parsePriority (.str kw)) = m.label) ∧
    parsePriority (.str "urgent") = some 4 ∧
    parsePriority (.str "3") = some 3 := by
  refine ⟨?_, by decide, by decide⟩
  decide

/-- C9 witness: the round-trip at the concrete keyword `urgent`. -/
theorem c9_keyword_roundtrip_witness :
    formatPriority (parsePriority (.str "urgent")) = "Urgent" :=
  c9_keyword_roundtrip.1 ⟨["urgent", "pressing", "time-sensitive",
    "time sensitive"], 4, "Urgent"⟩ (by decide) "urgent" (by decide)

/-- C10: when the trimmed input string has a maximal leading digit run whose
value lies in `[1,5]`, `parsePriority` returns that value and the keyword
sets are never consulted (so a keyword later in the string is ignored). -/
theorem c10_numeric_prefix_wins (s : String) (n : Int)
    (h1 : parseIntList (trimStr s).data = some n)
    (h2 : 1 ≤ n) (h3 : n ≤ 5) :
    parsePriority (.str s) = some ((n : ℚ)) := by
  have hn : parseIntList (normalizePriorityStr s).data = some n := by
    have he : (normalizePriorityStr s).data = lowerList (trimStr s).data := by
      show trimList (lowerList s.data) = lowerList (trimList s.data)
      exact trimList_lowerList s.data
    rw [he, parseIntList_lowerList]
    exact h1
  rw [parsePriority_str, hn]
  simp only
  rw [if_pos ⟨h2, h3⟩]

/-- C10 witness: `parsePriority "4 low" = 4` (the digit prefix wins over the
keyword `low` later in the string), and `parsePriority "3rd" = 3`. -/
theorem c10_numeric_prefix_wins_witness :
    parsePriority (.str "4 low") = some ((4 : ℚ)) ∧
      parsePriority (.str "3rd") = some ((3 : ℚ)) :=
  ⟨c10_numeric_prefix_wins "4 low" 4 (by decide) (by decide) (by decide),
   c10_numeric_prefix_wins "3rd" 3 (by decide) (by decide) (by decide)⟩

/-! ### Task identifier resolver (src/task-function-context.ts) -/

/-- Task record as returned by the remote API (`interface Task`). -/
structure Task : Type where
  id : String
  title : String
  completed : Bool
  scheduled_time : Option String := none
  priority_index : Option ℚ := none
  tags : Option (List String) := none
  created_at : String := ""
  updated_at : String := ""
deriving DecidableEq

theorem containsSub_trans (hay mid needle : String)
    (h1 : containsSub hay mid = true) (h2 : containsSub mid needle = true) :
    containsSub hay needle = true :=
  containsSub_sub hay mid needle h2 ((containsSub_iff hay mid).mp h1)

/-- Test for the plain-number pattern `^\d+$`. -/
def isPlainNumber (s : String) : Bool :=
  !s.data.isEmpty && s.data.all isDigitChar

/-- Case-insensitive test whether two characters form an ordinal suffix
(`st`, `nd`, `rd`, `th`). -/
def isOrdSuffix (a b : Char) : Bool :=
  (decide (lowerChar a = 's') && decide (lowerChar b = 't')) ||
  (decide (lowerChar a = 'n') && decide (lowerChar b = 'd')) ||
  (decide (lowerChar a = 'r') && decide (lowerChar b = 'd')) ||
  (decide (lowerChar a = 't') && decide (lowerChar b = 'h'))

/-- Attempt to match `(\d+)(st|nd|rd|th)` at the head of `l`, returning the
value of the digit group.  Backtracking over the greedy `\d+` is not needed:
a shorter digit group would leave a digit at the suffix position, and no
ordinal suffix starts with a digit. -/
def ordinalAt (l : List Char) : Option Nat :=
  let ds := l.takeWhile isDigitChar
  if ds.isEmpty then none
  else
    match l.drop ds.length with
    | a :: b :: _ => if isOrdSuffix a b then some (digitsVal ds) else none
    | _ => none

/-- Leftmost match of `(\d+)(st|nd|rd|th)` anywhere in the string (the
semantics of `identifier.match(/(\d+)(st|nd|rd|th)/i)`), returning the value
of the digit group. -/
def findOrdinal : List Char → Option Nat
  | [] => none
  | c :: cs =>
    match ordinalAt (c :: cs) with
    | some n => some n
    | none => findOrdinal cs

/-- Error message for an out-of-range positional reference. -/
def positionalNotFoundMsg (pos : Int) (count : Nat) : String :=
  "Task number " ++ toString pos ++ " doesn't exist. You have " ++
    toString count ++ " task" ++ (if count = 1 then "" else "s") ++ "."

/-- Error message when no title contains the identifier. -/
def noTaskFoundMsg (identifier : String) : String :=
  "No task found matching \"" ++ identifier ++
    "\". Please try a different description."

/-- Numbered titles `1. t`, `2. t`, ... of the matching tasks, numbered by
their position within the match list (the `matches.map((task, idx) => ...)`
enumeration). -/
def numberedTitles (i : Nat) : List Task → List String
  | [] => []
  | t :: ts => (toString (i + 1) ++ ". " ++ t.title) :: numberedTitles (i + 1) ts

/-- Error message when several titles contain the identifier. -/
def multipleMatchMsg (identifier : String) (ms : List Task) : String :=
  "Multiple tasks match \"" ++ identifier ++ "\": " ++
    joinSep ", " (numberedTitles 0 ms) ++
    ". Please be more specific or use a task number."

/-- Tasks whose lower-cased title contains the lower-cased identifier as a
substring. -/
def titleMatches (tasks : List Task) (identifier : String) : List Task :=
  tasks.filter (fun t => containsSub (lowerStr t.title) (lowerStr identifier))

/-- Shared body of the two positional branches: 1-based position into the
freshly fetched list, with the out-of-range error naming the task count. -/
def resolveByPosition (fetchTasks : Except String (List Task))
    (index : Int) : Except String String := do
  let tasks ← fetchTasks
  if index < 0 ∨ (tasks.length : Int) ≤ index then
    throw (positionalNotFoundMsg (index + 1) tasks.length)
  else
    match tasks[index.toNat]? with
    | some task => pure task.id
    | none => throw ("Task number " ++ toString (index + 1) ++ " doesn't exist.")

/-- Embedding of `resolveTaskIdentifier`.  `fetchTasks` is the outcome of
`getAllTasks`; each branch fetches, and within a single resolution every
fetch observes the same snapshot. -/
def resolveTaskIdentifier (fetchTasks : Except String (List Task))
    (identifier : String) : Except String String :=
  if isPlainNumber identifier then
    resolveByPosition fetchTasks ((digitsVal identifier.data : Int) - 1)
  else
    match findOrdinal identifier.data with
    | some n => resolveByPosition fetchTasks ((n : Int) - 1)
    | none => do
      let tasks ← fetchTasks
      match titleMatches tasks identifier with
      | [] => throw (noTaskFoundMsg identifier)
      | [task] => pure task.id
      | ms => throw (multipleMatchMsg identifier ms)

/-- C1: on a freshly fetched list `[A,B,C]`, both `"2"` and `"2nd"` resolve
to B's id (1-based position in list order, regardless of the tasks' titles),
and `"9"` fails with the not-found error stating the task count
(`3 tasks`). -/
theorem c1_positional_resolution (A B C : Task) :
    resolveTaskIdentifier (.ok [A, B, C]) "2" = .ok B.id ∧
    resolveTaskIdentifier (.ok [A, B, C]) "2nd" = .ok B.id ∧
    resolveTaskIdentifier (.ok [A, B, C]) "9" =
      .error "Task number 9 doesn't exist. You have 3 tasks." ∧
    containsSub "Task number 9 doesn't exist. You have 3 tasks." "3 tasks"
      = true := by
  refine ⟨rfl, rfl, ?_, by decide⟩
  have h : resolveTaskIdentifier (.ok [A, B, C]) "9" =
      .error (positionalNotFoundMsg ((digitsVal "9".data : Int) - 1 + 1) 3) := rfl
  rw [h]
  exact congrArg Except.error (by decide)

theorem resolveTaskIdentifier_semantic (tasks : List Task) (identifier : String)
    (h1 : isPlainNumber identifier = false)
    (h2 : findOrdinal identifier.data = none) :
    resolveTaskIdentifier (.ok tasks) identifier =
      match titleMatches tasks identifier with
      | [] => .error (noTaskFoundMsg identifier)
      | [task] => .ok task.id
      | ms => .error (multipleMatchMsg identifier ms) := by
  unfold resolveTaskIdentifier
  rw [h1, h2]
  rfl

theorem mem_numberedTitles (t : Task) (ms : List Task) (ht : t ∈ ms) (i : Nat) :
    ∃ s ∈ numberedTitles i ms, containsSub s t.title = true := by
  induction ms generalizing i with
  | nil => cases ht
  | cons a rest ih =>
    rcases List.mem_cons.mp ht with rfl | hmem
    · refine ⟨toString (i + 1) ++ ". " ++ t.title, List.mem_cons_self .., ?_⟩
      rw [containsSub_iff]
      exact ⟨(toString (i + 1) ++ ". ").data, [], by simp [String.data_append]⟩
    · rcases ih hmem (i + 1) with ⟨s, hs, hc⟩
      exact ⟨s, List.mem_cons_of_mem _ hs, hc⟩

/-- C2: for an identifier that is neither a plain integer nor contains an
ordinal pattern, resolution is by title substring: zero matches fail with
the not-found error naming the identifier, exactly one match returns that
task's id, and several matches fail with the ambiguity error that lists
every matching title with its position and asks for a number or a more
specific phrase. -/
theorem c2_semantic_matching (identifier : String) (tasks : List Task)
    (h1 : isPlainNumber identifier = false)
    (h2 : findOrdinal identifier.data = none) :
    (titleMatches tasks identifier = [] →
      resolveTaskIdentifier (.ok tasks) identifier =
          .error (noTaskFoundMsg identifier) ∧
        containsSub (noTaskFoundMsg identifier) identifier = true) ∧
    (∀ t : Task, titleMatches tasks identifier = [t] →
      resolveTaskIdentifier (.ok tasks) identifier = .ok t.id) ∧
    (1 < (titleMatches tasks identifier).length →
      resolveTaskIdentifier (.ok tasks) identifier =
          .error (multipleMatchMsg identifier (titleMatches tasks identifier)) ∧
        (∀ t ∈ titleMatches tasks identifier,
          containsSub (multipleMatchMsg identifier (titleMatches tasks identifier))
            t.title = true) ∧
        containsSub (multipleMatchMsg identifier (titleMatches tasks identifier))
          "Please be more specific or use a task number" = true) := by
  have hres := resolveTaskIdentifier_semantic tasks identifier h1 h2
  refine ⟨?_, ?_, ?_⟩
  · intro hempty
    rw [hres, hempty]
    refine ⟨rfl, ?_⟩
    exact containsSub_middle "No task found matching \"" identifier
      "\". Please try a different description."
  · intro t hone
    rw [hres, hone]
  · intro hlen
    rcases hm : titleMatches tasks identifier with _ | ⟨a, _ | ⟨b, rest⟩⟩
    · rw [hm] at hlen; simp at hlen
    · rw [hm] at hlen; simp at hlen
    · refine ⟨by rw [hres, hm], ?_, ?_⟩
      · intro t ht
        rcases mem_numberedTitles t (a :: b :: rest) ht 0 with ⟨s, hs, hc⟩
        have hjoin := mem_joinSep_contains ", " (numberedTitles 0 (a :: b :: rest)) s hs
        have htitle := containsSub_trans _ _ _ hjoin hc
        apply containsSub_trans _ (joinSep ", " (numberedTitles 0 (a :: b :: rest))) _ ?_ htitle
        rw [containsSub_iff]
        refine ⟨("Multiple tasks match \"" ++ identifier ++ "\": ").data,
          (". Please be more specific or use a task number.").data, ?_⟩
        simp [multipleMatchMsg, String.data_append]
      · apply containsSub_trans _ ". Please be more specific or use a task number." _ ?_ (by decide)
        rw [containsSub_iff]
        refine ⟨("Multiple tasks match \"" ++ identifier ++ "\": " ++
          joinSep ", " (numberedTitles 0 (a :: b :: rest))).data, [], ?_⟩
        simp [multipleMatchMsg, String.data_append]

/-- C2 witness: two tasks both containing `buy` make `"buy"` ambiguous, with
both titles listed in the error. -/
theorem c2_semantic_matching_witness :
    resolveTaskIdentifier
      (.ok [⟨"a1", "Buy milk", false, none, none, none, "", ""⟩,
            ⟨"b2", "buy eggs", false, none, none, none, "", ""⟩]) "buy" =
      .error ("Multiple tasks match \"buy\": 1. Buy milk, 2. buy eggs. " ++
        "Please be more specific or use a task number.") := by
  have h := (c2_semantic_matching "buy"
    [⟨"a1", "Buy milk", false, none, none, none, "", ""⟩,
     ⟨"b2", "buy eggs", false, none, none, none, "", ""⟩]
    (by decide) (by decide)).2.2 (by decide)
  rw [h.1]
  exact congrArg Except.error (by decide)

/-! ### Resilient call executor (retry utilities appended to src/date-parser.ts) -/

/-- Default retryability predicate of `DEFAULT_RETRY_OPTIONS`: connectivity
and server-side 5xx errors (by message substring) are retryable. -/
def defaultShouldRetry (e : String) : Bool :=
  let message := lowerStr e
  containsSub message "network" || containsSub message "timeout" ||
    containsSub message "fetch" || containsSub message "econnrefused" ||
    containsSub message "status 5"

/-- Retry policy value object (`RetryOptions` merged over
`DEFAULT_RETRY_OPTIONS`); the timeout race of each attempt is folded into
the attempt's outcome. -/
structure RetryOptions : Type where
  maxRetries : Nat := 2
  initialDelayMs : Nat := 500
  maxDelayMs : Nat := 5000
  timeoutMs : Nat := 10000
  backoffMultiplier : Nat := 2
  shouldRetry : String → Bool := defaultShouldRetry

/-- Embedding of `calculateDelay`. -/
def calculateDelay (attempt initialDelay maxDelay multiplier : Nat) : Nat :=
  min (initialDelay * multiplier ^ attempt) maxDelay

/-- Loop body of `withRetry`.  `fn n` is the outcome of the `n`-th attempt of
the wrapped operation (its timeout race included); `remaining` is
`maxRetries - attempt`, so `remaining = 0` exactly when
`attempt >= opts.maxRetries`.  Returns the final outcome together with the
list of backoff delays slept, in order. -/
def withRetryGo {α : Type} (fn : Nat → Except String α) (opts : RetryOptions) :
    Nat → Nat → Except String α × List Nat
  | attempt, remaining =>
    match fn attempt with
    | .ok v => (.ok v, [])
    | .error e =>
      match remaining with
      | 0 => (.error e, [])
      | r + 1 =>
        if opts.shouldRetry e then
          let d := calculateDelay attempt opts.initialDelayMs opts.maxDelayMs
            opts.backoffMultiplier
          let rec2 := withRetryGo fn opts (attempt + 1) r
          (rec2.1, d :: rec2.2)
        else (.error e, [])

/-- Embedding of `withRetry`: run attempts starting at 0; the number of
attempts performed is always one more than the number of recorded delays. -/
def withRetry {α : Type} (fn : Nat → Except String α) (opts : RetryOptions) :
    Except String α × List Nat :=
  withRetryGo fn opts 0 opts.maxRetries

theorem withRetryGo_delays_le {α : Type} (fn : Nat → Except String α)
    (opts : RetryOptions) (attempt remaining : Nat) :
    (withRetryGo fn opts attempt remaining).2.length ≤ remaining := by
  induction remaining generalizing attempt with
  | zero =>
    rw [withRetryGo]
    cases fn attempt <;> simp
  | succ r ih =>
    rw [withRetryGo]
    cases fn attempt with
    | ok v => simp
    | error e =>
      simp only
      by_cases h : opts.shouldRetry e = true
      · rw [if_pos h]
        simpa using ih (attempt + 1)
      · rw [if_neg h]
        simp

theorem withRetryGo_error_last {α : Type} (fn : Nat → Except String α)
    (opts : RetryOptions) (attempt remaining : Nat) (e : String)
    (h : (withRetryGo fn opts attempt remaining).1 = .error e) :
    fn (attempt + (withRetryGo fn opts attempt remaining).2.length) = .error e := by
  induction remaining generalizing attempt with
  | zero =>
    rw [withRetryGo] at h ⊢
    cases hf : fn attempt <;> rw [hf] at h <;> simp_all
  | succ r ih =>
    rw [withRetryGo] at h ⊢
    cases hf : fn attempt with
    | ok v => rw [hf] at h; simp at h
    | error e2 =>
      rw [hf] at h
      simp only at h ⊢
      by_cases hr : opts.shouldRetry e2 = true
      · rw [if_pos hr] at h ⊢
        simp only [List.length_cons] at h ⊢
        have := ih (attempt + 1) h
        rw [show attempt + ((withRetryGo fn opts (attempt + 1) r).2.length + 1)
          = attempt + 1 + (withRetryGo fn opts (attempt + 1) r).2.length by omega]
        exact this
      · rw [if_neg hr] at h ⊢
        simp only at h
        cases h
        simpa using hf

/-- C3: with `maxRetries = 2`, an operation failing on its first two
attempts with retryable errors and succeeding on the third returns the
success value after exactly the two backoff delays
`min(initialDelayMs * backoffMultiplier ^ attempt, maxDelayMs)`; a first
failure that is not retryable is re-raised with zero delays; in all cases
at most `maxRetries` delays (hence `maxRetries + 1` attempts) occur, and a
final error outcome is exactly the error of the last attempt performed. -/
theorem c3_withRetry_policy {α : Type} (opts : RetryOptions)
    (hmr : opts.maxRetries = 2) :
    (∀ (fn : Nat → Except String α) (e0 e1 : String) (v : α),
      fn 0 = .error e0 → fn 1 = .error e1 → fn 2 = .ok v →
      opts.shouldRetry e0 = true → opts.shouldRetry e1 = true →
      withRetry fn opts =
        (.ok v,
         [calculateDelay 0 opts.initialDelayMs opts.maxDelayMs opts.backoffMultiplier,
          calculateDelay 1 opts.initialDelayMs opts.maxDelayMs opts.backoffMultiplier])) ∧
    (∀ (fn : Nat → Except String α) (e : String),
      fn 0 = .error e → opts.shouldRetry e = false →
      withRetry fn opts = (.error e, [])) ∧
    (∀ fn : Nat → Except String α,
      (withRetry fn opts).2.length ≤ opts.maxRetries) ∧
    (∀ (fn : Nat → Except String α) (e : String),
      (withRetry fn opts).1 = .error e →
      fn ((withRetry fn opts).2.length) = .error e) := by
  refine ⟨?_, ?_, ?_, ?_⟩
  · intro fn e0 e1 v h0 h1 h2 hr0 hr1
    unfold withRetry
    rw [hmr]
    rw [withRetryGo, h0]
    simp only [if_pos hr0]
    rw [withRetryGo, h1]
    simp only [if_pos hr1]
    rw [withRetryGo, h2]
  · intro fn e h0 hnr
    unfold withRetry
    rw [hmr, withRetryGo, h0]
    simp only [hnr]
    rfl
  · intro fn
    unfold withRetry
    exact withRetryGo_delays_le fn opts 0 opts.maxRetries
  · intro fn e h
    have := withRetryGo_error_last fn opts 0 opts.maxRetries e h
    simpa using this

/-- C3 witness: an operation failing twice with a network error then
succeeding returns the value with delays 500 and 1000 under the default
policy, and a `status 404` failure aborts immediately. -/
theorem c3_withRetry_policy_witness :
    withRetry (fun n => if n < 2 then .error "network down" else .ok 42)
      { } = (.ok 42, [500, 1000]) ∧
    withRetry (fun _ => (.error "API request failed with status 404" :
        Except String Nat)) { } =
      (.error "API request failed with status 404", []) := by
  constructor
  · exact (c3_withRetry_policy { } rfl).1
      (fun n => if n < 2 then .error "network down" else .ok 42)
      "network down" "network down" 42 rfl rfl rfl (by decide) (by decide)
  · exact (c3_withRetry_policy { } rfl).2.1
      (fun _ => .error "API request failed with status 404")
      "API request failed with status 404" rfl (by decide)

/-! ### Natural-language date parser (src/date-parser.ts)

Instants are milliseconds since 1970-01-01T00:00:00Z.  `new Date(ref)`
followed by UTC field mutation is modelled by arithmetic on that count;
`setUTCDate(getUTCDate() + k)` adds exactly `k` days (UTC has no DST), and
`setUTCMonth` uses the Gregorian civil-calendar conversion below. -/

def msPerSecond : Nat := 1000
def msPerMinute : Nat := 60000
def msPerHour : Nat := 3600000
def msPerDay : Nat := 86400000

/-- Start (midnight UTC) of the calendar day containing instant `t`. -/
def dayStart (t : Nat) : Nat := t / msPerDay * msPerDay

/-- Model of `setUTCHours(h, 0, 0, 0)`. -/
def setUTCHoursTo (h : Nat) (t : Nat) : Nat := dayStart t + h * msPerHour

/-- Model of `getUTCDay` (0 = Sunday); 1970-01-01 was a Thursday (= 4). -/
def getUTCDay (t : Nat) : Nat := (t / msPerDay + 4) % 7

/-- Civil date `(y, m, d)` of day number `z` (days since 1970-01-01), by the
standard Gregorian conversion; valid for all `z ≥ 0`. -/
def civilFromDays (z : Nat) : Nat × Nat × Nat :=
  let z2 := z + 719468
  let era := z2 / 146097
  let doe := z2 % 146097
  let yoe := (doe - doe / 1460 + doe / 36524 - doe / 146096) / 365
  let y := yoe + era * 400
  let doy := doe - (365 * yoe + yoe / 4 - yoe / 100)
  let mp := (5 * doy + 2) / 153
  let d := doy - (153 * mp + 2) / 5 + 1
  let m := if mp < 10 then mp + 3 else mp - 9
  (if m ≤ 2 then y + 1 else y, m, d)

/-- Day number of a civil date (days since 1970-01-01).  `d` may exceed the
month length: the formula is linear in `d`, which is exactly how
JavaScript's UTC field mutation normalizes an overflowing day-of-month.
Valid for dates at or after 1970. -/
def daysFromCivil (y m d : Nat) : Nat :=
  let y2 := if m ≤ 2 then y - 1 else y
  let era := y2 / 400
  let yoe := y2 % 400
  let doy := (153 * (if 2 < m then m - 3 else m + 9) + 2) / 5 + d - 1
  let doe := yoe * 365 + yoe / 4 - yoe / 100 + doy
  era * 146097 + doe - 719468

/-- Model of `setUTCMonth(getUTCMonth() + k)`: month arithmetic with
calendar normalization, preserving the time of day. -/
def addUTCMonths (k : Nat) (t : Nat) : Nat :=
  let z := t / msPerDay
  let tod := t % msPerDay
  let c := civilFromDays z
  let total := c.1 * 12 + (c.2.1 - 1) + k
  daysFromCivil (total / 12) (total % 12 + 1) c.2.2 * msPerDay + tod

def allDigits (l : List Char) : Bool := l.all isDigitChar

/-- Tail of the ISO pattern after the seconds: `(\.\d{3})?Z?$`. -/
def isoFracTail : List Char → Bool
  | '.' :: a :: b :: c :: rest =>
    allDigits [a, b, c] && (rest.isEmpty || decide (rest = ['Z']))
  | rest => rest.isEmpty || decide (rest = ['Z'])

/-- Time-of-day part of the ISO pattern: `\d{2}:\d{2}:\d{2}(\.\d{3})?Z?$`. -/
def isoTimePart : List Char → Bool
  | h1 :: h2 :: ':' :: m1 :: m2 :: ':' :: s1 :: s2 :: rest =>
    allDigits [h1, h2, m1, m2, s1, s2] && isoFracTail rest
  | _ => false

/-- Embedding of `isISO8601`: the regex
`^\d{4}-\d{2}-\d{2}(T\d{2}:\d{2}:\d{2}(\.\d{3})?Z?)?$`. -/
def isISO8601 (s : String) : Bool :=
  match s.data with
  | y1 :: y2 :: y3 :: y4 :: '-' :: m1 :: m2 :: '-' :: d1 :: d2 :: rest =>
    allDigits [y1, y2, y3, y4, m1, m2, d1, d2] &&
      (rest.isEmpty ||
        (match rest with
         | 'T' :: t => isoTimePart t
         | _ => false))
  | _ => false

def daysInMonth (y m : Nat) : Nat :=
  if m = 2 then
    if (y % 4 = 0 ∧ y % 100 ≠ 0) ∨ y % 400 = 0 then 29 else 28
  else if m = 4 ∨ m = 6 ∨ m = 9 ∨ m = 11 then 30 else 31

def digits2 (a b : Char) : Nat := 10 * (a.toNat - 48) + (b.toNat - 48)

/-- Model of `new Date(input)` on a string accepted by `isISO8601`:
calendar-valid dates parse, everything else is an invalid date (NaN).
Modelling restrictions: dates before 1970 are treated as invalid (instants
are nonnegative), and a date-time without `Z` is read as UTC. -/
def parseISOInstant (s : String) : Option Nat :=
  match s.data with
  | y1 :: y2 :: y3 :: y4 :: '-' :: m1 :: m2 :: '-' :: d1 :: d2 :: rest =>
    let y := digitsVal [y1, y2, y3, y4]
    let m := digits2 m1 m2
    let d := digits2 d1 d2
    if 1970 ≤ y ∧ 1 ≤ m ∧ m ≤ 12 ∧ 1 ≤ d ∧ d ≤ daysInMonth y m then
      match rest with
      | [] => some (daysFromCivil y m d * msPerDay)
      | 'T' :: h1 :: h2 :: ':' :: mi1 :: mi2 :: ':' :: s1 :: s2 :: rest2 =>
        let hh := digits2 h1 h2
        let mm := digits2 mi1 mi2
        let ss := digits2 s1 s2
        let msPart : Option Nat :=
          match rest2 with
          | [] => some 0
          | ['Z'] => some 0
          | ['.', a, b, c] => some (digitsVal [a, b, c])
          | ['.', a, b, c, 'Z'] => some (digitsVal [a, b, c])
          | _ => none
        match msPart with
        | some msv =>
          if hh ≤ 23 ∧ mm ≤ 59 ∧ ss ≤ 59 then
            some (daysFromCivil y m d * msPerDay + hh * msPerHour +
              mm * msPerMinute + ss * msPerSecond + msv)
          else none
        | none => none
      | _ => none
    else none
  | _ => none

/-- Weekday names in `getUTCDay` order (the `weekdays` array of
`getNextWeekday`). -/
def weekdayNamesSun : List String :=
  ["sunday", "monday", "tuesday", "wednesday", "thursday", "friday",
   "saturday"]

/-- Weekday names in the order of `isWeekdayName`. -/
def weekdayNamesMon : List String :=
  ["monday", "tuesday", "wednesday", "thursday", "friday", "saturday",
   "sunday"]

/-- Embedding of `isWeekdayName`. -/
def isWeekdayName (s : String) : Bool := weekdayNamesMon.contains (lowerStr s)

/-- Embedding of `getNextWeekday`: `weekdays.indexOf` is `findIdx?` on the
Sunday-first list (`none` models `-1`, which throws). -/
def getNextWeekday (weekday : String) (referenceDate : Nat)
    (forceNext : Bool) : Except String Nat :=
  match weekdayNamesSun.findIdx? (fun w => w == lowerStr weekday) with
  | none => .error ("Invalid weekday: " ++ weekday)
  | some targetDayIndex =>
    let currentDayIndex := getUTCDay referenceDate
    let base := setUTCHoursTo 12 referenceDate
    let daysUntilTarget : Int :=
      (targetDayIndex : Int) - (currentDayIndex : Int)
    let adjusted : Int :=
      if decide (daysUntilTarget ≤ 0) || forceNext then daysUntilTarget + 7
      else daysUntilTarget
    .ok ((base : Int) + adjusted * (msPerDay : Int)).toNat

/-- Match of `^in (\d+) (day|days|week|weeks|month|months)$`. -/
def matchInN (l : List Char) : Option (Nat × String) :=
  match l with
  | 'i' :: 'n' :: ' ' :: rest =>
    let ds := rest.takeWhile isDigitChar
    if ds.isEmpty then none
    else
      match rest.drop ds.length with
      | ' ' :: unit =>
        if ["day", "days", "week", "weeks", "month", "months"].contains
            (String.mk unit)
        then some (digitsVal ds, String.mk unit)
        else none
      | _ => none
  | _ => none

/-- Embedding of `parseRelativeDate`. -/
def parseRelativeDate (input : String) (referenceDate : Nat) :
    Except String Nat :=
  match matchInN input.data with
  | none => .error ("Invalid relative date format: " ++ input)
  | some (amount, unit) =>
    let base := setUTCHoursTo 12 referenceDate
    if unit = "day" ∨ unit = "days" then .ok (base + amount * msPerDay)
    else if unit = "week" ∨ unit = "weeks" then
      .ok (base + amount * 7 * msPerDay)
    else if unit = "month" ∨ unit = "months" then
      .ok (addUTCMonths amount base)
    else .ok base

/-- Match of `^next (monday|...|sunday)$`, returning the weekday (the
`replace('next ', '')` result). -/
def nextPrefixWeekday (s : String) : Option String :=
  match s.data with
  | 'n' :: 'e' :: 'x' :: 't' :: ' ' :: rest =>
    if weekdayNamesMon.contains (String.mk rest) then some (String.mk rest)
    else none
  | _ => none

/-- Match of `^this (monday|...|sunday)$`, returning the weekday. -/
def thisPrefixWeekday (s : String) : Option String :=
  match s.data with
  | 't' :: 'h' :: 'i' :: 's' :: ' ' :: rest =>
    if weekdayNamesMon.contains (String.mk rest) then some (String.mk rest)
    else none
  | _ => none

def pastDateMsg : String :=
  "Cannot schedule tasks in the past. Please choose a future date."

def dateParseErrorMsg (input : String) : String :=
  "I couldn't understand the date \"" ++ input ++
    "\". Try phrases like \"tomorrow\", \"next Monday\", \"in 3 days\", or a specific date."

/-- Embedding of `parseNaturalDate` (returning the instant instead of its
ISO string rendering). -/
def parseNaturalDate (input : String) (referenceDate : Nat) :
    Except String Nat :=
  let normalized := trimStr (lowerStr input)
  if isISO8601 input then
    match parseISOInstant input with
    | none => .error "Invalid date format"
    | some date =>
      if date < referenceDate then .error pastDateMsg else .ok date
  else
    let step : Except String Nat :=
      if normalized = "today" ∨ normalized = "tonight" then
        if normalized = "tonight" then .ok (setUTCHoursTo 20 referenceDate)
        else .ok (setUTCHoursTo 12 referenceDate)
      else if normalized = "tomorrow" then
        .ok (setUTCHoursTo 12 (referenceDate + msPerDay))
      else if normalized = "next week" then
        .ok (setUTCHoursTo 12 (referenceDate + 7 * msPerDay))
      else if normalized = "next month" then
        .ok (setUTCHoursTo 12 (addUTCMonths 1 referenceDate))
      else if (matchInN normalized.data).isSome then
        parseRelativeDate normalized referenceDate
      else
        match nextPrefixWeekday normalized with
        | some w => getNextWeekday w referenceDate true
        | none =>
          if isWeekdayName normalized then
            getNextWeekday normalized referenceDate false
          else
            match thisPrefixWeekday normalized with
            | some w => getNextWeekday w referenceDate false
            | none => .error (dateParseErrorMsg input)
    match step with
    | .error e => .error e
    | .ok targetDate =>
      if targetDate < referenceDate then .error pastDateMsg
      else .ok targetDate

/-- Index of a weekday name in `getUTCDay` numbering (Sunday = 0). -/
def weekdayIndexSun (W : String) : Option Nat :=
  weekdayNamesSun.findIdx? (fun w => w == W)

theorem weekday_branch_spec (W : String) (R : Nat) (i : Nat) (hi : i < 7)
    (hfind : weekdayNamesSun.findIdx? (fun w => w == lowerStr W) = some i)
    (hpnd : parseNaturalDate W R =
      (match getNextWeekday W R false with
       | .ok v => if v < R then .error pastDateMsg else .ok v
       | .error e => .error e)) :
    ∃ t, parseNaturalDate W R = .ok t ∧ R < t ∧
      (getUTCDay R = i → t = dayStart R + 7 * msPerDay + 12 * msPerHour) := by
  have hg : getNextWeekday W R false = .ok
      (((setUTCHoursTo 12 R : Int) +
        (if decide ((i : Int) - (getUTCDay R : Int) ≤ 0) || false
         then (i : Int) - (getUTCDay R : Int) + 7
         else (i : Int) - (getUTCDay R : Int)) * (msPerDay : Int)).toNat) := by
    unfold getNextWeekday
    rw [hfind]
  have hlt : R <
      (((setUTCHoursTo 12 R : Int) +
        (if decide ((i : Int) - (getUTCDay R : Int) ≤ 0) || false
         then (i : Int) - (getUTCDay R : Int) + 7
         else (i : Int) - (getUTCDay R : Int)) * (msPerDay : Int)).toNat) := by
    simp only [Bool.or_false, setUTCHoursTo, dayStart, getUTCDay, msPerDay,
      msPerHour]
    split <;> rename_i hcond <;>
      simp only [decide_eq_true_eq, decide_eq_false_iff_not] at hcond <;> omega
  refine ⟨_, ?_, hlt, ?_⟩
  · rw [hpnd, hg]
    simp only
    rw [if_neg (Nat.not_lt.mpr hlt.le)]
  · intro hday
    simp only [Bool.or_false, setUTCHoursTo, dayStart, getUTCDay, msPerDay,
      msPerHour] at hday ⊢
    split <;> rename_i hcond <;>
      simp only [decide_eq_true_eq, decide_eq_false_iff_not] at hcond <;> omega

/-- C6: for every weekday name and every reference instant, the parser
returns an instant strictly after the reference, and when the reference
date's own UTC weekday is the named one, the result is the occurrence 7
days after the reference date at 12:00 UTC (never the reference date
itself). -/
theorem c6_weekday_never_past (W : String) (hW : W ∈ weekdayNamesMon)
    (R : Nat) :
    ∃ t, parseNaturalDate W R = .ok t ∧ R < t ∧
      (weekdayIndexSun W = some (getUTCDay R) →
        t = dayStart R + 7 * msPerDay + 12 * msPerHour) := by
  fin_cases hW
  · rcases weekday_branch_spec "monday" R 1 (by decide) (by decide) rfl
      with ⟨t, h1, h2, h3⟩
    refine ⟨t, h1, h2, fun hc => h3 ?_⟩
    have : some 1 = some (getUTCDay R) :=
      (show weekdayIndexSun "monday" = some 1 by decide) ▸ hc
    exact (Option.some_inj.mp this).symm
  · rcases weekday_branch_spec "tuesday" R 2 (by decide) (by decide) rfl
      with ⟨t, h1, h2, h3⟩
    refine ⟨t, h1, h2, fun hc => h3 ?_⟩
    have : some 2 = some (getUTCDay R) :=
      (show weekdayIndexSun "tuesday" = some 2 by decide) ▸ hc
    exact (Option.some_inj.mp this).symm
  · rcases weekday_branch_spec "wednesday" R 3 (by decide) (by decide) rfl
      with ⟨t, h1, h2, h3⟩
    refine ⟨t, h1, h2, fun hc => h3 ?_⟩
    have : some 3 = some (getUTCDay R) :=
      (show weekdayIndexSun "wednesday" = some 3 by decide) ▸ hc
    exact (Option.some_inj.mp this).symm
  · rcases weekday_branch_spec "thursday" R 4 (by decide) (by decide) rfl
      with ⟨t, h1, h2, h3⟩
    refine ⟨t, h1, h2, fun hc => h3 ?_⟩
    have : some 4 = some (getUTCDay R) :=
      (show weekdayIndexSun "thursday" = some 4 by decide) ▸ hc
    exact (Option.some_inj.mp this).symm
  · rcases weekday_branch_spec "friday" R 5 (by decide) (by decide) rfl
      with ⟨t, h1, h2, h3⟩
    refine ⟨t, h1, h2, fun hc => h3 ?_⟩
    have : some 5 = some (getUTCDay R) :=
      (show weekdayIndexSun "friday" = some 5 by decide) ▸ hc
    exact (Option.some_inj.mp this).symm
  · rcases weekday_branch_spec "saturday" R 6 (by decide) (by decide) rfl
      with ⟨t, h1, h2, h3⟩
    refine ⟨t, h1, h2, fun hc => h3 ?_⟩
    have : some 6 = some (getUTCDay R) :=
      (show weekdayIndexSun "saturday" = some 6 by decide) ▸ hc
    exact (Option.some_inj.mp this).symm
  · rcases weekday_branch_spec "sunday" R 0 (by decide) (by decide) rfl
      with ⟨t, h1, h2, h3⟩
    refine ⟨t, h1, h2, fun hc => h3 ?_⟩
    have : some 0 = some (getUTCDay R) :=
      (show weekdayIndexSun "sunday" = some 0 by decide) ▸ hc
    exact (Option.some_inj.mp this).symm

/-- C6 witness: on Monday 2024-01-15T10:00:00Z, `"friday"` resolves to
Friday 2024-01-19T12:00Z (strictly in the future), and `"monday"` resolves
to Monday 2024-01-22T12:00Z, seven days ahead. -/
theorem c6_weekday_never_past_witness :
    parseNaturalDate "monday" 1705312800000 = .ok 1705924800000 := by
  rcases c6_weekday_never_past "monday" (by decide) 1705312800000
    with ⟨t, h1, _h2, h3⟩
  have ht : t = dayStart 1705312800000 + 7 * msPerDay + 12 * msPerHour :=
    h3 (by decide)
  rw [h1, ht]
  exact congrArg Except.ok (by decide)

/-- C7: `parseNaturalDate "today"` returns the reference date at 12:00 UTC
when the reference's UTC time of day is at or before 12:00:00, and raises
the past-date error when the time of day is strictly after 12:00:00,
because the past-date check applies to every branch. -/
theorem c7_today_past_guard (R : Nat) :
    (R % msPerDay ≤ 12 * msPerHour →
      parseNaturalDate "today" R = .ok (dayStart R + 12 * msPerHour)) ∧
    (12 * msPerHour < R % msPerDay →
      parseNaturalDate "today" R = .error pastDateMsg) := by
  have h : parseNaturalDate "today" R =
      (if setUTCHoursTo 12 R < R then Except.error pastDateMsg
       else .ok (setUTCHoursTo 12 R)) := rfl
  constructor
  · intro hle
    rw [h, if_neg ?hn]
    · rfl
    case hn =>
      simp only [setUTCHoursTo, dayStart, msPerDay, msPerHour] at hle ⊢
      omega
  · intro hgt
    rw [h, if_pos ?hp]
    case hp =>
      simp only [setUTCHoursTo, dayStart, msPerDay, msPerHour] at hgt ⊢
      omega

/-- C7 witness: at 2024-01-15T10:00Z the result is 2024-01-15T12:00Z; the
error side is exercised through the same theorem at 13:00Z. -/
theorem c7_today_past_guard_witness :
    parseNaturalDate "today" 1705312800000 = .ok 1705320000000 ∧
    parseNaturalDate "today" 1705323600000 = .error pastDateMsg := by
  constructor
  · have h := (c7_today_past_guard 1705312800000).1 (by decide)
    rw [h]
    exact congrArg Except.ok (by decide)
  · exact (c7_today_past_guard 1705323600000).2 (by decide)

/-! ### Command tools (src/task-function-context.ts)

Each tool's `execute` is embedded as a total function to `String`: the
try-body is an `Except String String` whose `ok` value is the returned
string (an early return or the final confirmation) and whose `error` value
is a thrown error handled by the tool's catch block.  The HTTP exchanges a
tool performs are abstracted by their outcomes (`Env`); request payloads
and frontend notifications have no effect on the returned string and are
not modelled. -/

/-- Argument state of a `nullish` zod parameter: absent, `null`, or a
value. -/
inductive Nullish (α : Type) : Type
  | absent : Nullish α
  | null : Nullish α
  | val (a : α) : Nullish α
deriving DecidableEq

def Nullish.isVal {α : Type} : Nullish α → Bool
  | .val _ => true
  | _ => false

/-- JavaScript truthiness of a nullish string argument. -/
def nullishStrTruthy : Nullish String → Bool
  | .val s => decide (s ≠ "")
  | _ => false

/-- JavaScript truthiness of a `string | number` nullish argument. -/
def priorityTruthy : PriorityArg → Bool
  | .str s => decide (s ≠ "")
  | .num q => decide (q ≠ 0)
  | _ => false

def PriorityArg.isGiven : PriorityArg → Bool
  | .absent => false
  | .null => false
  | _ => true

/-- Outcomes of the HTTP exchanges of one tool invocation, each after
`fetchWithErrorHandling`'s retries: the task-list fetch (`getAllTasks` /
the `get_tasks` query) and the mutating call (POST/PATCH/DELETE). -/
structure Env : Type where
  fetchTasks : Except String (List Task)
  httpResult : Except String Task

/-- Embedding of `formatErrorForTTS`. -/
def formatErrorForTTS (error operation : String) : String :=
  let message := lowerStr error
  if containsSub message "network" || containsSub message "fetch" ||
      containsSub message "econnrefused" then
    "I couldn't " ++ operation ++
      " due to a network error. Please check your connection and try again."
  else if containsSub message "timeout" then
    "The request to " ++ operation ++ " timed out. Please try again."
  else if containsSub message "status 5" then
    "The server encountered an error while trying to " ++ operation ++
      ". Please try again in a moment."
  else if containsSub message "status 4" then
    if containsSub message "404" || containsSub message "not found" then
      "I couldn't find that task. Please try a different description."
    else if containsSub message "400" || containsSub message "invalid" then
      "The request to " ++ operation ++
        " was invalid. Please try rephrasing your command."
    else
      "There was a problem with the request to " ++ operation ++
        ". Please try again."
  else "I couldn't " ++ operation ++ ". Please try again."

/-- The catch-block test that recognizes a user-facing clarification
message from the resolver. -/
def isClarificationMsg (m : String) : Bool :=
  containsSub m "Multiple tasks match" || containsSub m "No task found" ||
    containsSub m "doesn't exist"

/-- Rendering of the priority argument inside a template literal. -/
def priorityArgText : PriorityArg → String
  | .absent => "undefined"
  | .null => "null"
  | .str s => s
  | .num q => toString q

def invalidPriorityMsg (priority : PriorityArg) : String :=
  "I couldn't understand the priority \"" ++ priorityArgText priority ++
    "\". Please use low, normal, high, urgent, critical, or a number from 1 to 5."

def noChangesMsg : String :=
  "No changes specified. Please tell me what you'd like to update."

/-- Result of one normalization step inside a tool body: an early `return`
of a user-facing string, or continuation (recording whether the step added
a field to the request body). -/
inductive StepRes : Type
  | early (s : String) : StepRes
  | cont (fieldAdded : Bool) : StepRes

/-- The `if (scheduled_time) { try { parseNaturalDate ... } catch { return
message } }` step of `create_task` (truthiness test: absent, null and the
empty string all skip parsing). -/
def createDateStep (ref : Nat) : Nullish String → StepRes
  | .val s =>
    if s = "" then .cont false
    else
      match parseNaturalDate s ref with
      | .error msg => .early msg
      | .ok _ => .cont true
  | _ => .cont false

/-- The `scheduled_time !== undefined && scheduled_time !== null` date step
of `update_task` (no truthiness: an empty string is parsed and fails). -/
def updDateStep (ref : Nat) : Nullish String → StepRes
  | .val s =>
    match parseNaturalDate s ref with
    | .error msg => .early msg
    | .ok _ => .cont true
  | _ => .cont false

/-- The priority step of `update_task`: a provided priority must parse or
the tool returns the invalid-priority message. -/
def updPriorityStep : PriorityArg → StepRes
  | .absent => .cont false
  | .null => .cont false
  | p =>
    match parsePriority p with
    | some _ => .cont true
    | none => .early (invalidPriorityMsg p)

/-- Try-body of `create_task.execute`. -/
def create_step (env : Env) (ref : Nat) (scheduled_time : Nullish String)
    (priority : PriorityArg) : Except String String :=
  match createDateStep ref scheduled_time with
  | .early msg => .ok msg
  | .cont _ =>
    match parsePriority priority, priority with
    | none, .str p => .ok (invalidPriorityMsg (.str p))
    | none, .num q => .ok (invalidPriorityMsg (.num q))
    | _, _ =>
      match env.httpResult with
      | .error e => .error e
      | .ok _task => .ok "Task created"

/-- Embedding of `create_task.execute` (title and tags shape only the
request payload, which is not observable in the returned string). -/
def create_task_execute (env : Env) (ref : Nat) (_title : String)
    (scheduled_time : Nullish String) (priority : PriorityArg)
    (_tags : Nullish (List String)) : String :=
  match create_step env ref scheduled_time priority with
  | .ok s => s
  | .error e => formatErrorForTTS e "create that task"

/-- Try-body of `get_tasks.execute`. -/
def get_tasks_step (env : Env) (query : Nullish String)
    (priority : PriorityArg) (scheduled : Nullish String) :
    Except String String :=
  match parsePriority priority, priority with
  | none, .str p => .ok (invalidPriorityMsg (.str p))
  | none, .num q => .ok (invalidPriorityMsg (.num q))
  | _, _ =>
    match env.fetchTasks with
    | .error e => .error e
    | .ok tasks =>
      if tasks.length = 0 then
        if nullishStrTruthy query || priorityTruthy priority ||
            nullishStrTruthy scheduled then .ok "No tasks found"
        else .ok "No tasks"
      else
        .ok ("Found " ++ toString tasks.length ++ " task" ++
          (if tasks.length = 1 then "" else "s"))

/-- Embedding of `get_tasks.execute`. -/
def get_tasks_execute (env : Env) (query : Nullish String)
    (priority : PriorityArg) (scheduled : Nullish String) : String :=
  match get_tasks_step env query priority scheduled with
  | .ok s => s
  | .error e => formatErrorForTTS e "retrieve your tasks"

/-- Try-body of `update_task.execute`.  `hasField` mirrors the
`Object.keys(body).length === 0` check; the success message tests
`completed !== undefined` only, so a null `completed` still selects the
marked-complete/incomplete wording. -/
def update_step (env : Env) (ref : Nat) (identifier : String)
    (title : Nullish String) (scheduled_time : Nullish String)
    (priority : PriorityArg) (completed : Nullish Bool) :
    Except String String :=
  match resolveTaskIdentifier env.fetchTasks identifier with
  | .error e => .error e
  | .ok _taskId =>
    match updDateStep ref scheduled_time with
    | .early msg => .ok msg
    | .cont hasDate =>
      match updPriorityStep priority with
      | .early msg => .ok msg
      | .cont hasPri =>
        let hasField := title.isVal || hasDate || hasPri || completed.isVal
        if hasField = false then .ok noChangesMsg
        else
          match env.httpResult with
          | .error e => .error e
          | .ok task =>
            match completed with
            | .absent => .ok "Updated"
            | _ =>
              .ok (if task.completed then "Marked complete"
                else "Marked incomplete")

/-- Embedding of `update_task.execute`. -/
def update_task_execute (env : Env) (ref : Nat) (identifier : String)
    (title : Nullish String) (scheduled_time : Nullish String)
    (priority : PriorityArg) (completed : Nullish Bool) : String :=
  match update_step env ref identifier title scheduled_time priority
      completed with
  | .ok s => s
  | .error e =>
    if isClarificationMsg e then e
    else formatErrorForTTS e "update that task"

/-- Try-body of `delete_task.execute`. -/
def delete_step (env : Env) (identifier : String) : Except String String :=
  match resolveTaskIdentifier env.fetchTasks identifier with
  | .error e => .error e
  | .ok _taskId =>
    match env.httpResult with
    | .error e => .error e
    | .ok _task => .ok "Deleted"

/-- Embedding of `delete_task.execute`. -/
def delete_task_execute (env : Env) (identifier : String) : String :=
  match delete_step env identifier with
  | .ok s => s
  | .error e =>
    if isClarificationMsg e then e
    else formatErrorForTTS e "delete that task"

/-! ### Every resolver-generated error is a clarification message -/

theorem positionalNotFoundMsg_clarifies (pos : Int) (count : Nat) :
    isClarificationMsg (positionalNotFoundMsg pos count) = true := by
  have h : containsSub (positionalNotFoundMsg pos count) "doesn't exist"
      = true := by
    apply containsSub_sub _ " doesn't exist. You have " _ (by decide)
    refine ⟨("Task number " ++ toString pos).data,
      (toString count ++ " task" ++
        (if count = 1 then "" else "s") ++ ".").data, ?_⟩
    simp [positionalNotFoundMsg, String.data_append]
  simp [isClarificationMsg, h]

theorem positionalGuardMsg_clarifies (pos : Int) :
    isClarificationMsg
      ("Task number " ++ toString pos ++ " doesn't exist.") = true := by
  have h : containsSub ("Task number " ++ toString pos ++ " doesn't exist.")
      "doesn't exist" = true := by
    apply containsSub_sub _ " doesn't exist." _ (by decide)
    refine ⟨("Task number " ++ toString pos).data, [], ?_⟩
    simp [String.data_append]
  simp [isClarificationMsg, h]

theorem noTaskFoundMsg_clarifies (identifier : String) :
    isClarificationMsg (noTaskFoundMsg identifier) = true := by
  have h : containsSub (noTaskFoundMsg identifier) "No task found" = true := by
    apply containsSub_sub _ "No task found matching \"" _ (by decide)
    refine ⟨[], (identifier ++ "\". Please try a different description.").data,
      ?_⟩
    simp [noTaskFoundMsg, String.data_append]
  simp [isClarificationMsg, h]

theorem multipleMatchMsg_clarifies (identifier : String) (ms : List Task) :
    isClarificationMsg (multipleMatchMsg identifier ms) = true := by
  have h : containsSub (multipleMatchMsg identifier ms) "Multiple tasks match"
      = true := by
    apply containsSub_sub _ "Multiple tasks match \"" _ (by decide)
    refine ⟨[], (identifier ++ "\": " ++
      joinSep ", " (numberedTitles 0 ms) ++
      ". Please be more specific or use a task number.").data, ?_⟩
    simp [multipleMatchMsg, String.data_append]
  simp [isClarificationMsg, h]

theorem resolveByPosition_error_clarifies (tasks : List Task) (index : Int)
    (m : String) (h : resolveByPosition (.ok tasks) index = .error m) :
    isClarificationMsg m = true := by
  have heq : resolveByPosition (.ok tasks) index =
      (if index < 0 ∨ (tasks.length : Int) ≤ index then
        Except.error (positionalNotFoundMsg (index + 1) tasks.length)
      else
        match tasks[index.toNat]? with
        | some task => Except.ok task.id
        | none =>
          Except.error
            ("Task number " ++ toString (index + 1) ++ " doesn't exist.")) :=
    rfl
  rw [heq] at h
  split at h
  · cases h
    exact positionalNotFoundMsg_clarifies (index + 1) tasks.length
  · split at h
    · exact Except.noConfusion h
    · cases h
      exact positionalGuardMsg_clarifies (index + 1)

theorem resolver_error_clarifies (tasks : List Task) (identifier : String)
    (m : String)
    (h : resolveTaskIdentifier (.ok tasks) identifier = .error m) :
    isClarificationMsg m = true := by
  unfold resolveTaskIdentifier at h
  by_cases h1 : isPlainNumber identifier = true
  · rw [if_pos h1] at h
    exact resolveByPosition_error_clarifies _ _ _ h
  · rw [if_neg h1] at h
    cases h2 : findOrdinal identifier.data with
    | some n =>
      rw [h2] at h
      exact resolveByPosition_error_clarifies _ _ _ h
    | none =>
      rw [h2] at h
      have h3 : (match titleMatches tasks identifier with
          | [] => Except.error (noTaskFoundMsg identifier)
          | [task] => Except.ok task.id
          | ms => Except.error (multipleMatchMsg identifier ms)) =
          (Except.error m : Except String String) := h
      split at h3
      · cases h3
        exact noTaskFoundMsg_clarifies identifier
      · exact Except.noConfusion h3
      · cases h3
        exact multipleMatchMsg_clarifies identifier _

/-! ### Tool-level success and error-path characterizations -/

/-- The `create_task` date argument does not make the tool early-return: it
is absent, null, empty (falsy), or parses. -/
def dateArgOkCreate (ref : Nat) (sch : Nullish String) : Prop :=
  ∀ s, sch = .val s → s ≠ "" → ∃ d, parseNaturalDate s ref = .ok d

/-- The `update_task` date argument does not make the tool early-return: it
is absent, null, or parses (an empty string is parsed here). -/
def dateArgOkUpdate (ref : Nat) (sch : Nullish String) : Prop :=
  ∀ s, sch = .val s → ∃ d, parseNaturalDate s ref = .ok d

/-- The priority argument does not make the tool early-return: it parses,
or it is absent or null. -/
def priorityArgOk (p : PriorityArg) : Prop :=
  (∃ q, parsePriority p = some q) ∨ p = .absent ∨ p = .null

theorem createDateStep_cont (ref : Nat) (sch : Nullish String)
    (hd : dateArgOkCreate ref sch) :
    ∃ b, createDateStep ref sch = .cont b := by
  cases sch with
  | absent => exact ⟨false, rfl⟩
  | null => exact ⟨false, rfl⟩
  | val s =>
    have h : createDateStep ref (.val s) =
        (if s = "" then StepRes.cont false
         else
           match parseNaturalDate s ref with
           | .error msg => .early msg
           | .ok _ => .cont true) := rfl
    by_cases hs : s = ""
    · exact ⟨false, by rw [h, if_pos hs]⟩
    · rcases hd s rfl hs with ⟨d, hdd⟩
      exact ⟨true, by rw [h, if_neg hs, hdd]⟩

theorem updDateStep_eq (ref : Nat) (sch : Nullish String)
    (hd : dateArgOkUpdate ref sch) :
    updDateStep ref sch = .cont sch.isVal := by
  cases sch with
  | absent => rfl
  | null => rfl
  | val s =>
    rcases hd s rfl with ⟨d, hdd⟩
    have h : updDateStep ref (.val s) =
        (match parseNaturalDate s ref with
         | .error msg => StepRes.early msg
         | .ok _ => .cont true) := rfl
    rw [h, hdd]
    rfl

theorem updPriorityStep_eq (p : PriorityArg) (hp : priorityArgOk p) :
    updPriorityStep p = .cont p.isGiven := by
  rcases hp with ⟨q, hq⟩ | rfl | rfl
  · cases p with
    | absent => rfl
    | null => rfl
    | str s =>
      have h : updPriorityStep (.str s) =
          (match parsePriority (.str s) with
           | some _ => StepRes.cont true
           | none => .early (invalidPriorityMsg (.str s))) := rfl
      rw [h, hq]
      rfl
    | num q2 =>
      have h : updPriorityStep (.num q2) =
          (match parsePriority (.num q2) with
           | some _ => StepRes.cont true
           | none => .early (invalidPriorityMsg (.num q2))) := rfl
      rw [h, hq]
      rfl
  · rfl
  · rfl

theorem create_step_http (env : Env) (ref : Nat) (sch : Nullish String)
    (p : PriorityArg) (hd : dateArgOkCreate ref sch) (hp : priorityArgOk p) :
    create_step env ref sch p =
      (match env.httpResult with
       | .error e => Except.error e
       | .ok _task => .ok "Task created") := by
  rcases createDateStep_cont ref sch hd with ⟨b, hb⟩
  unfold create_step
  rw [hb]
  rcases hp with ⟨q, hq⟩ | rfl | rfl
  · cases p <;> rw [hq]
  · rfl
  · rfl

theorem get_tasks_step_fetch (env : Env) (q : Nullish String)
    (p : PriorityArg) (sch : Nullish String) (hp : priorityArgOk p) :
    get_tasks_step env q p sch =
      (match env.fetchTasks with
       | .error e => Except.error e
       | .ok tasks =>
         if tasks.length = 0 then
           if nullishStrTruthy q || priorityTruthy p ||
               nullishStrTruthy sch then .ok "No tasks found"
           else .ok "No tasks"
         else
           .ok ("Found " ++ toString tasks.length ++ " task" ++
             (if tasks.length = 1 then "" else "s"))) := by
  unfold get_tasks_step
  rcases hp with ⟨qv, hq⟩ | rfl | rfl
  · cases p <;> rw [hq]
  · rfl
  · rfl

theorem update_step_resolved (env : Env) (ref : Nat) (identifier : String)
    (ttl sch : Nullish String) (pri : PriorityArg) (cmp : Nullish Bool)
    (tid : String)
    (hres : resolveTaskIdentifier env.fetchTasks identifier = .ok tid)
    (hd : dateArgOkUpdate ref sch) (hp : priorityArgOk pri) :
    update_step env ref identifier ttl sch pri cmp =
      (if (ttl.isVal || sch.isVal || pri.isGiven || cmp.isVal) = false then
        .ok noChangesMsg
      else
        match env.httpResult with
        | .error e => Except.error e
        | .ok task =>
          match cmp with
          | .absent => .ok "Updated"
          | _ =>
            .ok (if task.completed then "Marked complete"
              else "Marked incomplete")) := by
  unfold update_step
  rw [hres, updDateStep_eq ref sch hd, updPriorityStep_eq pri hp]

/-- C4: every error raised while a tool executes ends as a returned string
under the documented policy — resolver clarification errors are returned
verbatim by `update_task`/`delete_task`, date-parse and priority-parse
failures are returned as their user-facing messages, and transport/HTTP
errors surviving the retries are translated by `formatErrorForTTS`.
Totality (the embedded `execute` functions are `String`-valued on every
input) rules out any unhandled rejection. -/
theorem c4_tools_always_return_strings :
    (∀ (env : Env) (ref : Nat) (identifier : String) (ttl sch : Nullish String)
        (pri : PriorityArg) (cmp : Nullish Bool) (tasks : List Task)
        (m : String),
      env.fetchTasks = .ok tasks →
      resolveTaskIdentifier env.fetchTasks identifier = .error m →
      update_task_execute env ref identifier ttl sch pri cmp = m) ∧
    (∀ (env : Env) (identifier : String) (tasks : List Task) (m : String),
      env.fetchTasks = .ok tasks →
      resolveTaskIdentifier env.fetchTasks identifier = .error m →
      delete_task_execute env identifier = m) ∧
    (∀ (env : Env) (ref : Nat) (ttl s : String) (pri : PriorityArg)
        (tg : Nullish (List String)) (msg : String),
      s ≠ "" → parseNaturalDate s ref = .error msg →
      create_task_execute env ref ttl (.val s) pri tg = msg) ∧
    (∀ (env : Env) (ref : Nat) (identifier : String) (ttl : Nullish String)
        (s : String) (pri : PriorityArg) (cmp : Nullish Bool)
        (tid msg : String),
      resolveTaskIdentifier env.fetchTasks identifier = .ok tid →
      parseNaturalDate s ref = .error msg →
      update_task_execute env ref identifier ttl (.val s) pri cmp = msg) ∧
    (∀ (env : Env) (ref : Nat) (ttl : String) (sch : Nullish String)
        (pri : PriorityArg) (tg : Nullish (List String)),
      dateArgOkCreate ref sch → parsePriority pri = none →
      pri ≠ .absent → pri ≠ .null →
      create_task_execute env ref ttl sch pri tg = invalidPriorityMsg pri) ∧
    (∀ (env : Env) (q : Nullish String) (pri : PriorityArg)
        (sch : Nullish String) (e : String),
      priorityArgOk pri → env.fetchTasks = .error e →
      get_tasks_execute env q pri sch =
        formatErrorForTTS e "retrieve your tasks") ∧
    (∀ (env : Env) (ref : Nat) (ttl : String) (sch : Nullish String)
        (pri : PriorityArg) (tg : Nullish (List String)) (e : String),
      dateArgOkCreate ref sch → priorityArgOk pri →
      env.httpResult = .error e →
      create_task_execute env ref ttl sch pri tg =
        formatErrorForTTS e "create that task") ∧
    (∀ (env : Env) (ref : Nat) (identifier : String)
        (ttl sch : Nullish String) (pri : PriorityArg) (b : Bool)
        (tid e : String),
      resolveTaskIdentifier env.fetchTasks identifier = .ok tid →
      dateArgOkUpdate ref sch → priorityArgOk pri →
      env.httpResult = .error e → isClarificationMsg e = false →
      update_task_execute env ref identifier ttl sch pri (.val b) =
        formatErrorForTTS e "update that task") ∧
    (∀ (env : Env) (identifier : String) (tid e : String),
      resolveTaskIdentifier env.fetchTasks identifier = .ok tid →
      env.httpResult = .error e → isClarificationMsg e = false →
      delete_task_execute env identifier =
        formatErrorForTTS e "delete that task") := by
  refine ⟨?_, ?_, ?_, ?_, ?_, ?_, ?_, ?_, ?_⟩
  · intro env ref identifier ttl sch pri cmp tasks m hfetch hres
    have hclar : isClarificationMsg m = true := by
      rw [hfetch] at hres
      exact resolver_error_clarifies tasks identifier m hres
    have hstep : update_step env ref identifier ttl sch pri cmp = .error m := by
      unfold update_step
      rw [hres]
    unfold update_task_execute
    rw [hstep]
    show (if isClarificationMsg m = true then m
      else formatErrorForTTS m "update that task") = m
    rw [if_pos hclar]
  · intro env identifier tasks m hfetch hres
    have hclar : isClarificationMsg m = true := by
      rw [hfetch] at hres
      exact resolver_error_clarifies tasks identifier m hres
    have hstep : delete_step env identifier = .error m := by
      unfold delete_step
      rw [hres]
    unfold delete_task_execute
    rw [hstep]
    show (if isClarificationMsg m = true then m
      else formatErrorForTTS m "delete that task") = m
    rw [if_pos hclar]
  · intro env ref ttl s pri tg msg hs hperr
    have hds : createDateStep ref (.val s) = .early msg := by
      have h : createDateStep ref (.val s) =
          (if s = "" then StepRes.cont false
           else
             match parseNaturalDate s ref with
             | .error m2 => .early m2
             | .ok _ => .cont true) := rfl
      rw [h, if_neg hs, hperr]
    have hstep : create_step env ref (.val s) pri = .ok msg := by
      unfold create_step
      rw [hds]
    unfold create_task_execute
    rw [hstep]
  · intro env ref identifier ttl s pri cmp tid msg hres hperr
    have hds : updDateStep ref (.val s) = .early msg := by
      have h : updDateStep ref (.val s) =
          (match parseNaturalDate s ref with
           | .error m2 => StepRes.early m2
           | .ok _ => .cont true) := rfl
      rw [h, hperr]
    have hstep :
        update_step env ref identifier ttl (.val s) pri cmp = .ok msg := by
      unfold update_step
      rw [hres, hds]
    unfold update_task_execute
    rw [hstep]
  · intro env ref ttl sch pri tg hd hpn hu hn
    rcases createDateStep_cont ref sch hd with ⟨b, hb⟩
    have hstep : create_step env ref sch pri = .ok (invalidPriorityMsg pri) := by
      unfold create_step
      rw [hb, hpn]
      cases pri with
      | absent => exact absurd rfl hu
      | null => exact absurd rfl hn
      | str s2 => rfl
      | num q2 => rfl
    unfold create_task_execute
    rw [hstep]
  · intro env q pri sch e hp hferr
    have hstep : get_tasks_step env q pri sch = .error e := by
      rw [get_tasks_step_fetch env q pri sch hp, hferr]
    unfold get_tasks_execute
    rw [hstep]
  · intro env ref ttl sch pri tg e hd hp hhttp
    have hstep : create_step env ref sch pri = .error e := by
      rw [create_step_http env ref sch pri hd hp, hhttp]
    unfold create_task_execute
    rw [hstep]
  · intro env ref identifier ttl sch pri b tid e hres hd hp hhttp hcl
    have hstep :
        update_step env ref identifier ttl sch pri (.val b) = .error e := by
      rw [update_step_resolved env ref identifier ttl sch pri (.val b) tid
        hres hd hp]
      rw [show (ttl.isVal || sch.isVal || pri.isGiven ||
        Nullish.isVal (Nullish.val b)) = true from by simp [Nullish.isVal]]
      rw [if_neg (by simp), hhttp]
    unfold update_task_execute
    rw [hstep]
    show (if isClarificationMsg e = true then e
      else formatErrorForTTS e "update that task") =
      formatErrorForTTS e "update that task"
    rw [if_neg (by simp [hcl])]
  · intro env identifier tid e hres hhttp hcl
    have hstep : delete_step env identifier = .error e := by
      unfold delete_step
      rw [hres, hhttp]
    unfold delete_task_execute
    rw [hstep]
    show (if isClarificationMsg e = true then e
      else formatErrorForTTS e "delete that task") =
      formatErrorForTTS e "delete that task"
    rw [if_neg (by simp [hcl])]

/-- C4 witness: an out-of-range positional reference makes `update_task`
return the resolver's clarification message verbatim. -/
theorem c4_tools_always_return_strings_witness :
    update_task_execute
      ⟨.ok [⟨"a1", "Buy milk", false, none, none, none, "", ""⟩],
       .ok ⟨"a1", "Buy milk", false, none, none, none, "", ""⟩⟩
      0 "99" .absent .absent .absent .absent =
      "Task number 99 doesn't exist. You have 1 task." := by
  apply c4_tools_always_return_strings.1 _ 0 "99" .absent .absent .absent .absent
    [⟨"a1", "Buy milk", false, none, none, none, "", ""⟩] _ rfl
  have h : resolveTaskIdentifier
      (Except.ok [⟨"a1", "Buy milk", false, none, none, none, "", ""⟩])
      "99" =
      .error (positionalNotFoundMsg ((digitsVal "99".data : Int) - 1 + 1) 1) :=
    rfl
  exact h.trans (congrArg Except.error (by decide))

/-- C5: successful tool results are fixed-vocabulary confirmations that
never echo task content — `"Task created"`, `"Deleted"`, `"Updated"` or
`"Marked complete"`/`"Marked incomplete"` (chosen by the updated task's
completion flag alone), and a successful `get_tasks` reports only the count
(`"Found N task(s)"`, or `"No tasks"`/`"No tasks found"` for an empty
result without/with filters). -/
theorem c5_minimal_confirmations :
    (∀ (env : Env) (ref : Nat) (ttl : String) (sch : Nullish String)
        (pri : PriorityArg) (tg : Nullish (List String)) (task : Task),
      dateArgOkCreate ref sch → priorityArgOk pri →
      env.httpResult = .ok task →
      create_task_execute env ref ttl sch pri tg = "Task created") ∧
    (∀ (env : Env) (q : Nullish String) (pri : PriorityArg)
        (sch : Nullish String) (tasks : List Task),
      priorityArgOk pri → env.fetchTasks = .ok tasks →
      get_tasks_execute env q pri sch =
        (if tasks.length = 0 then
          if nullishStrTruthy q || priorityTruthy pri ||
              nullishStrTruthy sch then "No tasks found"
          else "No tasks"
         else
           "Found " ++ toString tasks.length ++ " task" ++
             (if tasks.length = 1 then "" else "s"))) ∧
    (∀ (env : Env) (ref : Nat) (identifier : String)
        (ttl sch : Nullish String) (pri : PriorityArg) (cmp : Nullish Bool)
        (tid : String) (task : Task),
      resolveTaskIdentifier env.fetchTasks identifier = .ok tid →
      dateArgOkUpdate ref sch → priorityArgOk pri →
      (ttl.isVal || sch.isVal || pri.isGiven || cmp.isVal) = true →
      env.httpResult = .ok task →
      update_task_execute env ref identifier ttl sch pri cmp =
        (match cmp with
         | .absent => "Updated"
         | _ =>
           if task.completed then "Marked complete"
           else "Marked incomplete")) ∧
    (∀ (env : Env) (identifier : String) (tid : String) (task : Task),
      resolveTaskIdentifier env.fetchTasks identifier = .ok tid →
      env.httpResult = .ok task →
      delete_task_execute env identifier = "Deleted") := by
  refine ⟨?_, ?_, ?_, ?_⟩
  · intro env ref ttl sch pri tg task hd hp hhttp
    have hstep : create_step env ref sch pri = .ok "Task created" := by
      rw [create_step_http env ref sch pri hd hp, hhttp]
    unfold create_task_execute
    rw [hstep]
  · intro env q pri sch tasks hp hfetch
    have hstep := get_tasks_step_fetch env q pri sch hp
    rw [hfetch] at hstep
    have hstep2 : get_tasks_step env q pri sch =
        (if tasks.length = 0 then
          if (nullishStrTruthy q || priorityTruthy pri ||
              nullishStrTruthy sch) = true then Except.ok "No tasks found"
          else Except.ok "No tasks"
         else
           Except.ok ("Found " ++ toString tasks.length ++ " task" ++
             (if tasks.length = 1 then "" else "s"))) := hstep
    unfold get_tasks_execute
    rw [hstep2]
    by_cases h0 : tasks.length = 0
    · by_cases ht : (nullishStrTruthy q || priorityTruthy pri ||
          nullishStrTruthy sch) = true
      · simp [h0, ht]
      · simp [h0, ht]
    · simp [h0]
  · intro env ref identifier ttl sch pri cmp tid task hres hd hp hf hhttp
    have hstep := update_step_resolved env ref identifier ttl sch pri cmp tid
      hres hd hp
    rw [hf] at hstep
    rw [if_neg (by simp)] at hstep
    rw [hhttp] at hstep
    unfold update_task_execute
    rw [hstep]
    cases cmp <;> rfl
  · intro env identifier tid task hres hhttp
    have hstep : delete_step env identifier = .ok "Deleted" := by
      unfold delete_step
      rw [hres, hhttp]
    unfold delete_task_execute
    rw [hstep]

/-- C5 witness: a concrete successful `create_task` answers exactly
`Task created`, and a successful filtered `get_tasks` over three tasks
answers exactly `Found 3 tasks`. -/
theorem c5_minimal_confirmations_witness :
    create_task_execute
      ⟨.ok [], .ok ⟨"a1", "Buy milk", false, none, none, none, "", ""⟩⟩
      0 "Buy milk" .absent .absent .absent = "Task created" ∧
    get_tasks_execute
      ⟨.ok [⟨"a1", "A", false, none, none, none, "", ""⟩,
            ⟨"b2", "B", false, none, none, none, "", ""⟩,
            ⟨"c3", "C", false, none, none, none, "", ""⟩],
       .ok ⟨"a1", "A", false, none, none, none, "", ""⟩⟩
      .absent .absent .absent = "Found 3 tasks" := by
  constructor
  · exact c5_minimal_confirmations.1
      (⟨.ok [], .ok ⟨"a1", "Buy milk", false, none, none, none, "", ""⟩⟩ :
        Env)
      0 "Buy milk" .absent .absent .absent
      ⟨"a1", "Buy milk", false, none, none, none, "", ""⟩
      (fun s hs => by cases hs) (Or.inr (Or.inl rfl)) rfl
  · have h := c5_minimal_confirmations.2.1
      (⟨.ok [⟨"a1", "A", false, none, none, none, "", ""⟩,
             ⟨"b2", "B", false, none, none, none, "", ""⟩,
             ⟨"c3", "C", false, none, none, none, "", ""⟩],
        .ok ⟨"a1", "A", false, none, none, none, "", ""⟩⟩ : Env)
      .absent .absent .absent
      [⟨"a1", "A", false, none, none, none, "", ""⟩,
       ⟨"b2", "B", false, none, none, none, "", ""⟩,
       ⟨"c3", "C", false, none, none, none, "", ""⟩]
      (Or.inr (Or.inl rfl)) rfl
    rw [h]
    decide

end VoiceTodo
